import Mathlib

/-!
Verification of the OilPriceAPI MCP server utilities (`src/index.ts`):
the commodity-code resolver `resolveCommodityCode` and the resilient
fetcher `makeApiRequest`.

Strings are shallowly embedded as lists of Unicode code points
(`List Nat`).  JavaScript `toLowerCase` / `toUpperCase` / `trim` and
`parseInt` are modelled on the ASCII range, which covers every character
appearing in the commodity tables and status codes of the program.
-/

namespace OilPrice

/-- Code points of a Lean string literal; used to embed the JS string
literals of the source tables. -/
def str (s : String) : List Nat :=
  s.data.map Char.toNat

/-- JS `toLowerCase` on one code point (ASCII range). -/
def lowerChar (n : Nat) : Nat :=
  if 65 ≤ n ∧ n ≤ 90 then n + 32 else n

/-- JS `toUpperCase` on one code point (ASCII range). -/
def upperChar (n : Nat) : Nat :=
  if 97 ≤ n ∧ n ≤ 122 then n - 32 else n

/-- JS `String.prototype.toLowerCase`. -/
def jsToLower (l : List Nat) : List Nat :=
  l.map lowerChar

/-- JS `String.prototype.toUpperCase`. -/
def jsToUpper (l : List Nat) : List Nat :=
  l.map upperChar

/-- JS whitespace (ASCII part): space, tab, LF, VT, FF, CR. -/
def isJsSpace (n : Nat) : Bool :=
  n = 32 || n = 9 || n = 10 || n = 11 || n = 12 || n = 13

/-- JS `String.prototype.trim` (ASCII whitespace). -/
def jsTrim (l : List Nat) : List Nat :=
  ((l.dropWhile isJsSpace).reverse.dropWhile isJsSpace).reverse

/-- Does `hay` start with `sub`? (helper for `jsIncludes`). -/
def listStartsWith : List Nat → List Nat → Bool
  | _, [] => true
  | [], _ :: _ => false
  | a :: as, b :: bs => (a = b) && listStartsWith as bs

/-- JS `hay.includes(sub)`: `sub` occurs contiguously inside `hay`. -/
def jsIncludes : List Nat → List Nat → Bool
  | [], sub => sub.isEmpty
  | a :: t, sub => listStartsWith (a :: t) sub || jsIncludes t sub

/-- Table `COMMODITY_ALIASES` from `src/index.ts`, an association list in the
object's insertion order (all keys are non-index strings, so JS preserves
that order during `Object.entries` iteration). -/
def COMMODITY_ALIASES : List (List Nat × List Nat) :=
  [ (str "brent", str "BRENT_CRUDE_USD"),
    (str "brent oil", str "BRENT_CRUDE_USD"),
    (str "brent crude", str "BRENT_CRUDE_USD"),
    (str "brent crude oil", str "BRENT_CRUDE_USD"),
    (str "north sea oil", str "BRENT_CRUDE_USD"),
    (str "wti", str "WTI_USD"),
    (str "wti oil", str "WTI_USD"),
    (str "wti crude", str "WTI_USD"),
    (str "west texas", str "WTI_USD"),
    (str "us oil", str "WTI_USD"),
    (str "american oil", str "WTI_USD"),
    (str "russian oil", str "URALS_CRUDE_USD"),
    (str "urals", str "URALS_CRUDE_USD"),
    (str "urals crude", str "URALS_CRUDE_USD"),
    (str "dubai", str "DUBAI_CRUDE_USD"),
    (str "dubai crude", str "DUBAI_CRUDE_USD"),
    (str "dubai oil", str "DUBAI_CRUDE_USD"),
    (str "middle east oil", str "DUBAI_CRUDE_USD"),
    (str "natural gas", str "NATURAL_GAS_USD"),
    (str "gas", str "NATURAL_GAS_USD"),
    (str "nat gas", str "NATURAL_GAS_USD"),
    (str "henry hub", str "NATURAL_GAS_USD"),
    (str "us gas", str "NATURAL_GAS_USD"),
    (str "us natural gas", str "NATURAL_GAS_USD"),
    (str "uk gas", str "NATURAL_GAS_GBP"),
    (str "uk natural gas", str "NATURAL_GAS_GBP"),
    (str "british gas", str "NATURAL_GAS_GBP"),
    (str "european gas", str "DUTCH_TTF_EUR"),
    (str "ttf", str "DUTCH_TTF_EUR"),
    (str "dutch ttf", str "DUTCH_TTF_EUR"),
    (str "eu gas", str "DUTCH_TTF_EUR"),
    (str "coal", str "COAL_USD"),
    (str "thermal coal", str "COAL_USD"),
    (str "newcastle coal", str "NEWCASTLE_COAL_USD"),
    (str "australian coal", str "NEWCASTLE_COAL_USD"),
    (str "diesel", str "DIESEL_USD"),
    (str "diesel fuel", str "DIESEL_USD"),
    (str "gasoline", str "GASOLINE_USD"),
    (str "petrol", str "GASOLINE_USD"),
    (str "gas fuel", str "GASOLINE_USD"),
    (str "rbob", str "GASOLINE_RBOB_USD"),
    (str "rbob gasoline", str "GASOLINE_RBOB_USD"),
    (str "jet fuel", str "JET_FUEL_USD"),
    (str "aviation fuel", str "JET_FUEL_USD"),
    (str "kerosene", str "JET_FUEL_USD"),
    (str "heating oil", str "HEATING_OIL_USD"),
    (str "gold", str "GOLD_USD"),
    (str "carbon", str "EU_CARBON_EUR"),
    (str "eu carbon", str "EU_CARBON_EUR"),
    (str "carbon credits", str "EU_CARBON_EUR"),
    (str "euro", str "EUR_USD"),
    (str "eur usd", str "EUR_USD"),
    (str "pound", str "GBP_USD"),
    (str "gbp usd", str "GBP_USD"),
    (str "sterling", str "GBP_USD") ]

/-- Table `COMMODITY_CODES` from `src/index.ts`. -/
def COMMODITY_CODES : List (List Nat) :=
  [ str "BRENT_CRUDE_USD",
    str "WTI_USD",
    str "URALS_CRUDE_USD",
    str "DUBAI_CRUDE_USD",
    str "NATURAL_GAS_USD",
    str "NATURAL_GAS_GBP",
    str "DUTCH_TTF_EUR",
    str "COAL_USD",
    str "NEWCASTLE_COAL_USD",
    str "DIESEL_USD",
    str "GASOLINE_USD",
    str "GASOLINE_RBOB_USD",
    str "JET_FUEL_USD",
    str "HEATING_OIL_USD",
    str "GOLD_USD",
    str "EU_CARBON_EUR",
    str "EUR_USD",
    str "GBP_USD" ]

/-- JS values the resolver can return.  `COMMODITY_ALIASES` is a plain
object literal, so the property read `COMMODITY_ALIASES[normalized]`
walks the prototype chain: besides the table's own string entries it can
hit an inherited member of `Object.prototype`.  Since `normalized` is
lowercased, the only reachable inherited members are the two whose names
contain no uppercase letter: `constructor` (the `Object` function) and
`__proto__` (the `Object.prototype` object). -/
inductive JsValue where
  | jsStr (s : List Nat)
  | objectConstructorFn
  | objectPrototype
  deriving DecidableEq, Repr

/-- Whether a JS value is a string. -/
def JsValue.isString : JsValue → Bool
  | JsValue.jsStr _ => true
  | _ => false

/-- The string value of a JS value (`[]` on the non-string members). -/
def JsValue.strVal : JsValue → List Nat
  | JsValue.jsStr s => s
  | _ => []

/-- The normalized inputs at which `COMMODITY_ALIASES[normalized]` hits
an inherited `Object.prototype` member instead of an own entry. -/
def protoKeys : List (List Nat) :=
  [str "constructor", str "__proto__"]

/-- JS property read `COMMODITY_ALIASES[normalized]`: own properties
first, then the prototype chain (`Object.prototype`); `none` models
`undefined`. -/
def aliasRead (normalized : List Nat) : Option JsValue :=
  match COMMODITY_ALIASES.lookup normalized with
  | some v => some (JsValue.jsStr v)
  | none =>
    if normalized = str "constructor" then some JsValue.objectConstructorFn
    else if normalized = str "__proto__" then some JsValue.objectPrototype
    else none

/-- Function `resolveCommodityCode` from `src/index.ts`:
normalize (lowercase, trim); exact-code passthrough; alias-object read
(own entries, then the prototype chain); first fuzzy substring match in
table order; default `BRENT_CRUDE_USD`.  The source's truthiness test
`if (mapped)` passes for every present property value — own entries are
nonempty strings and the two inherited members are a function and an
object, all truthy — and fails exactly for `undefined`, so a present
property is returned and an absent one falls through to the fuzzy
tier. -/
def resolveCommodityCode (input : List Nat) : JsValue :=
  let normalized := jsTrim (jsToLower input)
  if jsToUpper normalized ∈ COMMODITY_CODES then
    JsValue.jsStr (jsToUpper normalized)
  else
    match aliasRead normalized with
    | some mapped => mapped
    | none =>
      match COMMODITY_ALIASES.find?
          (fun p => jsIncludes normalized p.1 || jsIncludes p.1 normalized) with
      | some p => JsValue.jsStr p.2
      | none => JsValue.jsStr (str "BRENT_CRUDE_USD")

/-- Whether a JS value is one of the commodity-code strings. -/
def isCommodityCode : JsValue → Bool
  | JsValue.jsStr s => decide (s ∈ COMMODITY_CODES)
  | _ => false

/-- Result of JS `parseInt(s, 10)`: `none` models `NaN`. -/
def jsParseInt (l : List Nat) : Option Int :=
  let t := l.dropWhile isJsSpace
  match t with
  | 43 :: rest => (parseDigits rest).map (fun n => (n : Int))
  | 45 :: rest => (parseDigits rest).map (fun n => -(n : Int))
  | _ => (parseDigits t).map (fun n => (n : Int))
where
  /-- Value of the longest leading decimal-digit run; `none` when empty. -/
  parseDigits (l : List Nat) : Option Nat :=
    let d := l.takeWhile (fun n => 48 ≤ n && n ≤ 57)
    if d.isEmpty then none
    else some (d.foldl (fun a n => a * 10 + (n - 48)) 0)

/-- A JS millisecond delay value passed to `setTimeout`: either a number
of milliseconds or `NaN` (arising from arithmetic on a failed parse). -/
inductive JsDelay where
  | ms (n : Int)
  | nan
  deriving DecidableEq, Repr

/-- Result of `response.json()`: a parsed value or a thrown parse error. -/
inductive JsonBody (α : Type) where
  | ok (v : α)
  | throwParse
  deriving DecidableEq, Repr

/-- The parts of a fetch `Response` that `makeApiRequest` reads: the
status, the `Retry-After` header value (`none` when absent), and the
behaviour of `.json()`. -/
structure MockResponse (α : Type) where
  status : Nat
  retryAfter : Option (List Nat)
  body : JsonBody α
  deriving DecidableEq, Repr

/-- Field `Response.ok` per the Fetch standard: status in the 2xx range. -/
def MockResponse.isOk {α : Type} (r : MockResponse α) : Bool :=
  200 ≤ r.status && r.status ≤ 299

/-- One call to the injected `fetchFn`: either a resolved response or a
thrown transport error (rejected promise). -/
inductive FetchOutcome (α : Type) where
  | throw
  | resp (r : MockResponse α)
  deriving DecidableEq, Repr

/-- How each `makeApiRequest` call ends.  `raised` marks an exception
escaping to the caller; the theorems show the code never produces it. -/
inductive ApiOutcome (α : Type) where
  | value (v : α)
  | null
  | raised
  deriving DecidableEq, Repr

/-- Observable trace of one `makeApiRequest` call: how it ended, how many
underlying fetch calls were made, the delays scheduled between attempts,
and how many diagnostics were written to `console.error`. -/
structure RunResult (α : Type) where
  result : ApiOutcome α
  calls : Nat
  delays : List JsDelay
  diag : Nat
  deriving DecidableEq, Repr

/-- Constant `maxRetries` from `makeApiRequest`. -/
def maxRetries : Nat := 3

/-- Delay computed at line 319-321 of `src/index.ts` for a retried
429/5xx response:
`retryAfter ? Math.min(parseInt(retryAfter, 10), 60) * 1000 : Math.pow(2, attempt) * 1000`.
An absent header (`null`) and an empty header string are both falsy, so
they select the exponential arm; a non-empty unparsable header makes
`parseInt` return `NaN`, and `Math.min(NaN, 60) * 1000` is `NaN`. -/
def computeDelay (retryAfter : Option (List Nat)) (attempt : Nat) : JsDelay :=
  match retryAfter with
  | none => JsDelay.ms (2 ^ attempt * 1000)
  | some s =>
    if s.isEmpty then JsDelay.ms (2 ^ attempt * 1000)
    else
      match jsParseInt s with
      | some k => JsDelay.ms (min k 60 * 1000)
      | none => JsDelay.nan

/-- The retry loop of `makeApiRequest` (lines 298-343 of `src/index.ts`),
modelled for attempts `attempt, attempt+1, ...` with `fuel` iterations
left (`fuel = maxRetries + 1 - attempt` at the top call).  Each branch
mirrors the source: 2xx returns the parsed body; a thrown `.json()` is
caught by the same `catch` as transport errors (both are inside the
`try`); 401 returns null at once; 429/5xx with budget left sleeps for
`computeDelay` and continues; other statuses return null; the `catch`
returns null at the last attempt and otherwise sleeps `2^attempt` s. -/
def runFrom {α : Type} (fetchFn : Nat → FetchOutcome α) :
    Nat → Nat → RunResult α
  | 0, _ => ⟨ApiOutcome.null, 0, [], 0⟩
  | fuel + 1, attempt =>
    match fetchFn attempt with
    | FetchOutcome.throw =>
      if attempt = maxRetries then ⟨ApiOutcome.null, 1, [], 1⟩
      else
        let rest := runFrom fetchFn fuel (attempt + 1)
        ⟨rest.result, rest.calls + 1,
          JsDelay.ms (2 ^ attempt * 1000) :: rest.delays, rest.diag⟩
    | FetchOutcome.resp r =>
      if r.isOk then
        match r.body with
        | JsonBody.ok v => ⟨ApiOutcome.value v, 1, [], 0⟩
        | JsonBody.throwParse =>
          if attempt = maxRetries then ⟨ApiOutcome.null, 1, [], 1⟩
          else
            let rest := runFrom fetchFn fuel (attempt + 1)
            ⟨rest.result, rest.calls + 1,
              JsDelay.ms (2 ^ attempt * 1000) :: rest.delays, rest.diag⟩
      else if r.status = 401 then ⟨ApiOutcome.null, 1, [], 1⟩
      else if (r.status = 429 ∨ 500 ≤ r.status) ∧ attempt < maxRetries then
        let rest := runFrom fetchFn fuel (attempt + 1)
        ⟨rest.result, rest.calls + 1,
          computeDelay r.retryAfter attempt :: rest.delays, rest.diag⟩
      else ⟨ApiOutcome.null, 1, [], 1⟩

/-- Function `makeApiRequest` from `src/index.ts`, as a function of the injected
fetch behaviour (`fetchFn n` is the outcome of the call made on loop
attempt `n`). -/
def makeApiRequest {α : Type} (fetchFn : Nat → FetchOutcome α) : RunResult α :=
  runFrom fetchFn (maxRetries + 1) 0

/-- Spec-side restatement of the resolver's fuzzy tier, written from the
spec's words: iterate the alias table in its defined order and return the
mapped code of the first entry where the normalized input contains the
alias phrase or the alias phrase contains the normalized input; if no
entry qualifies, return the fixed default code. -/
def fuzzyResolveSpec (normalized : List Nat) : List Nat :=
  match COMMODITY_ALIASES.find?
      (fun p => jsIncludes normalized p.1 || jsIncludes p.1 normalized) with
  | some p => p.2
  | none => str "BRENT_CRUDE_USD"

/-- A fetch behaviour whose every response is a 429 carrying the
non-empty unparsable retry hint `"abc"`. -/
def fetch429BadHint : Nat → FetchOutcome Nat :=
  fun _ => FetchOutcome.resp ⟨429, some (str "abc"), JsonBody.ok 0⟩

/-- A fetch behaviour whose first response is a 429 with retry hint `"5"`
and whose second response succeeds. -/
def fetch429Hint5 : Nat → FetchOutcome Nat :=
  fun n =>
    if n = 0 then FetchOutcome.resp ⟨429, some (str "5"), JsonBody.ok 0⟩
    else FetchOutcome.resp ⟨200, none, JsonBody.ok 7⟩

/-- A fetch behaviour whose every response has status 200 and a body
whose JSON parsing throws. -/
def fetchParseThrow : Nat → FetchOutcome Nat :=
  fun _ => FetchOutcome.resp ⟨200, none, JsonBody.throwParse⟩

/-- A fetch behaviour whose every response is a plain 429. -/
def fetch429 : Nat → FetchOutcome Nat :=
  fun _ => FetchOutcome.resp ⟨429, none, JsonBody.ok 0⟩

/-- A fetch behaviour whose every call throws a transport error. -/
def fetchThrow : Nat → FetchOutcome Nat :=
  fun _ => FetchOutcome.throw

/-- A fetch behaviour whose every response has status 401. -/
def fetch401 : Nat → FetchOutcome Nat :=
  fun _ => FetchOutcome.resp ⟨401, none, JsonBody.ok 0⟩

end OilPrice

namespace OilPrice

example : resolveCommodityCode (str "brent") = JsValue.jsStr (str "BRENT_CRUDE_USD") := by decide
example : resolveCommodityCode (str "wti_usd") = JsValue.jsStr (str "WTI_USD") := by decide
example : resolveCommodityCode (str "unknown_commodity_xyz") = JsValue.jsStr (str "BRENT_CRUDE_USD") := by
  decide
example : resolveCommodityCode (str "!!!") = JsValue.jsStr (str "BRENT_CRUDE_USD") := by decide
example : resolveCommodityCode (str "BRENT") = JsValue.jsStr (str "BRENT_CRUDE_USD") := by decide
example : resolveCommodityCode (str "ttf") = JsValue.jsStr (str "DUTCH_TTF_EUR") := by decide
example : resolveCommodityCode (str "  WTI_USD  ") = JsValue.jsStr (str "WTI_USD") := by decide
example : resolveCommodityCode (str "constructor") = JsValue.objectConstructorFn := by decide
example : resolveCommodityCode (str " CONSTRUCTOR ") = JsValue.objectConstructorFn := by decide
example : resolveCommodityCode (str "__proto__") = JsValue.objectPrototype := by decide

example :
    makeApiRequest (α := Nat)
      (fun _ => FetchOutcome.resp ⟨429, none, JsonBody.throwParse⟩) =
    ⟨ApiOutcome.null, 4, [JsDelay.ms 1000, JsDelay.ms 2000, JsDelay.ms 4000], 1⟩ := by
  decide

example :
    makeApiRequest (α := Nat)
      (fun _ => FetchOutcome.resp ⟨401, none, JsonBody.throwParse⟩) =
    ⟨ApiOutcome.null, 1, [], 1⟩ := by decide

example :
    makeApiRequest (α := Nat) (fun _ => FetchOutcome.throw) =
    ⟨ApiOutcome.null, 4, [JsDelay.ms 1000, JsDelay.ms 2000, JsDelay.ms 4000], 1⟩ := by
  decide

example :
    makeApiRequest (α := Nat)
      (fun n => if n = 0 then FetchOutcome.resp ⟨429, some (str "5"), JsonBody.throwParse⟩
                else FetchOutcome.resp ⟨200, none, JsonBody.ok 7⟩) =
    ⟨ApiOutcome.value 7, 2, [JsDelay.ms 5000], 0⟩ := by decide

example : computeDelay (some (str "abc")) 0 = JsDelay.nan := by decide
example : jsParseInt (str "  -42xyz") = some (-42) := by decide
example : jsParseInt (str "") = none := by decide

/-! Helper lemmas about the character-level case maps. -/

/-- Uppercasing after lowercasing agrees with uppercasing directly. -/
lemma upperChar_lowerChar (a : Nat) : upperChar (lowerChar a) = upperChar a := by
  unfold lowerChar upperChar
  split_ifs <;> omega

/-- Lowercasing is injective up to case: equal lowercasings give equal
uppercasings. -/
lemma jsToUpper_lower (s : List Nat) : jsToUpper (jsToLower s) = jsToUpper s := by
  unfold jsToUpper jsToLower
  rw [List.map_map]
  exact List.map_congr_left (fun a _ => upperChar_lowerChar a)

/-- Strings with the same lowercasing have the same uppercasing. -/
lemma jsToUpper_congr {s t : List Nat} (h : jsToLower s = jsToLower t) :
    jsToUpper s = jsToUpper t := by
  rw [← jsToUpper_lower s, h, jsToUpper_lower t]

/-! Helper facts about the concrete tables, each checked by evaluation. -/

/-- Every alias value is a commodity code. -/
lemma alias_snd_mem :
    ∀ p : List Nat × List Nat, p ∈ COMMODITY_ALIASES → p.2 ∈ COMMODITY_CODES := by
  have h : COMMODITY_ALIASES.all (fun p => decide (p.2 ∈ COMMODITY_CODES)) = true := by
    decide
  intro p hp
  exact of_decide_eq_true (List.all_eq_true.mp h p hp)

/-- Resolving a code returns it unchanged (as a string). -/
lemma codes_resolve_fixed :
    ∀ c ∈ COMMODITY_CODES, resolveCommodityCode c = JsValue.jsStr c := by
  have h : COMMODITY_CODES.all
      (fun c => decide (resolveCommodityCode c = JsValue.jsStr c)) = true := by
    decide
  intro c hc
  exact of_decide_eq_true (List.all_eq_true.mp h c hc)

/-- Lowercased codes carry no surrounding whitespace. -/
lemma codes_trim_lower :
    ∀ c ∈ COMMODITY_CODES, jsTrim (jsToLower c) = jsToLower c := by
  have h : COMMODITY_CODES.all
      (fun c => decide (jsTrim (jsToLower c) = jsToLower c)) = true := by decide
  intro c hc
  exact of_decide_eq_true (List.all_eq_true.mp h c hc)

/-- Uppercasing a lowercased code restores the code. -/
lemma codes_upper_lower :
    ∀ c ∈ COMMODITY_CODES, jsToUpper (jsToLower c) = c := by
  have h : COMMODITY_CODES.all
      (fun c => decide (jsToUpper (jsToLower c) = c)) = true := by decide
  intro c hc
  exact of_decide_eq_true (List.all_eq_true.mp h c hc)

/-- Codes are already uppercase. -/
lemma codes_upper_self :
    ∀ c ∈ COMMODITY_CODES, jsToUpper c = c := by
  have h : COMMODITY_CODES.all (fun c => decide (jsToUpper c = c)) = true := by decide
  intro c hc
  exact of_decide_eq_true (List.all_eq_true.mp h c hc)

/-- Codes are nonempty strings. -/
lemma codes_ne_nil : ∀ c ∈ COMMODITY_CODES, c ≠ [] := by
  have h : COMMODITY_CODES.all (fun c => decide (c ≠ [])) = true := by decide
  intro c hc
  exact of_decide_eq_true (List.all_eq_true.mp h c hc)

/-- A successful association-list lookup locates a member pair. -/
lemma mem_of_lookup_eq_some {l : List (List Nat × List Nat)} {k v : List Nat}
    (h : l.lookup k = some v) : (k, v) ∈ l := by
  obtain ⟨l₁, l₂, rfl, -⟩ := List.lookup_eq_some_iff.mp h
  exact List.mem_append.mpr (Or.inr (List.mem_cons_self _ _))

/-- Away from the two inherited prototype keys, the resolver returns a
string belonging to `COMMODITY_CODES`. -/
lemma resolve_str_mem_codes (s : List Nat)
    (hp : jsTrim (jsToLower s) ∉ protoKeys) :
    ∃ c, resolveCommodityCode s = JsValue.jsStr c ∧ c ∈ COMMODITY_CODES := by
  have hc : ¬ jsTrim (jsToLower s) = str "constructor" := fun h =>
    hp (by simp [protoKeys, h])
  have hq : ¬ jsTrim (jsToLower s) = str "__proto__" := fun h =>
    hp (by simp [protoKeys, h])
  simp only [resolveCommodityCode]
  by_cases h1 : jsToUpper (jsTrim (jsToLower s)) ∈ COMMODITY_CODES
  · rw [if_pos h1]
    exact ⟨_, rfl, h1⟩
  · rw [if_neg h1]
    rcases hlk : COMMODITY_ALIASES.lookup (jsTrim (jsToLower s)) with _ | v
    · have har : aliasRead (jsTrim (jsToLower s)) = none := by
        simp [aliasRead, hlk, hc, hq]
      simp only [har]
      split
      · next p hf =>
        exact ⟨p.2, rfl, alias_snd_mem _ (List.mem_of_find?_eq_some hf)⟩
      · next hf => exact ⟨_, rfl, by decide⟩
    · have har : aliasRead (jsTrim (jsToLower s)) = some (JsValue.jsStr v) := by
        simp [aliasRead, hlk]
      simp only [har]
      exact ⟨v, rfl, alias_snd_mem _ (mem_of_lookup_eq_some hlk)⟩

/-- C6 counterexample: at the input `constructor` the alias-tier
property read walks the prototype chain and the program returns the
inherited `Object.prototype.constructor` — a function, not a string. -/
theorem resolve_total_counterexample :
    resolveCommodityCode (str "constructor") = JsValue.objectConstructorFn ∧
    (resolveCommodityCode (str "constructor")).isString = false := by decide

/-- C6 (amended): `resolveCommodityCode` never raises and always returns
a value, but it returns a string only for inputs whose normalized form
is not an all-lowercase inherited `Object.prototype` property name: at
`constructor` and `__proto__` it returns the inherited non-string
member.  The empty string and non-alphanumeric input still resolve to
the default code.  (In this embedding the function is a total Lean
function, so it cannot raise or return an undefined value.) -/
theorem resolve_total :
    (∀ s : List Nat, jsTrim (jsToLower s) ∉ protoKeys →
      (resolveCommodityCode s).isString = true) ∧
    (resolveCommodityCode (str "constructor")).isString = false ∧
    (resolveCommodityCode (str "__proto__")).isString = false ∧
    resolveCommodityCode (str "") = JsValue.jsStr (str "BRENT_CRUDE_USD") ∧
    resolveCommodityCode (str "!!!") = JsValue.jsStr (str "BRENT_CRUDE_USD") := by
  refine ⟨?_, by decide, by decide, by decide, by decide⟩
  intro s hp
  obtain ⟨c, hc, -⟩ := resolve_str_mem_codes s hp
  simp [hc, JsValue.isString]

/-- C6 witness: the string-returning arm applied at a concrete input. -/
theorem resolve_total_witness :
    (resolveCommodityCode (str "diesel")).isString = true :=
  resolve_total.1 (str "diesel") (by decide)

/-- C7: every string that equals a known commodity code
case-insensitively resolves to its own uppercasing. -/
theorem resolve_code_passthrough :
    ∀ s c : List Nat, c ∈ COMMODITY_CODES → jsToLower s = jsToLower c →
      resolveCommodityCode s = JsValue.jsStr (jsToUpper s) := by
  intro s c hc hlow
  have htrim : jsTrim (jsToLower s) = jsToLower c := by
    rw [hlow]
    exact codes_trim_lower c hc
  have hupper : jsToUpper (jsTrim (jsToLower s)) = c := by
    rw [htrim]
    exact codes_upper_lower c hc
  have hs : jsToUpper s = c := by
    rw [jsToUpper_congr hlow]
    exact codes_upper_self c hc
  simp only [resolveCommodityCode, hupper]
  rw [if_pos hc, hs]

/-- C7 witness: `wti_usd` is case-insensitively the code `WTI_USD` and
resolves to its uppercasing. -/
theorem resolve_code_passthrough_witness :
    resolveCommodityCode (str "wti_usd") = JsValue.jsStr (jsToUpper (str "wti_usd")) :=
  resolve_code_passthrough (str "wti_usd") (str "WTI_USD") (by decide) (by decide)

/-- C8: every key of the alias table resolves to the code the table maps
it to (the own entries shadow the prototype chain). -/
theorem resolve_alias_exact :
    ∀ p : List Nat × List Nat, p ∈ COMMODITY_ALIASES →
      resolveCommodityCode p.1 = JsValue.jsStr p.2 := by
  have h : COMMODITY_ALIASES.all
      (fun p => decide (resolveCommodityCode p.1 = JsValue.jsStr p.2)) = true := by
    decide
  intro p hp
  exact of_decide_eq_true (List.all_eq_true.mp h p hp)

/-- C8 witness: the alias key `wti` maps to `WTI_USD`. -/
theorem resolve_alias_exact_witness :
    resolveCommodityCode (str "wti") = JsValue.jsStr (str "WTI_USD") :=
  resolve_alias_exact (str "wti", str "WTI_USD") (by decide)

/-- C9 counterexample: the normalized input `constructor` is neither a
known code case-insensitively, nor an exact alias-table key, nor in any
substring relation with an alias phrase, yet the program does not return
the default `BRENT_CRUDE_USD`: the alias-tier property read hits the
inherited prototype member first. -/
theorem resolve_fuzzy_tier_counterexample :
    jsToUpper (jsTrim (jsToLower (str "constructor"))) ∉ COMMODITY_CODES ∧
    COMMODITY_ALIASES.lookup (jsTrim (jsToLower (str "constructor"))) = none ∧
    COMMODITY_ALIASES.find? (fun p =>
      jsIncludes (jsTrim (jsToLower (str "constructor"))) p.1 ||
      jsIncludes p.1 (jsTrim (jsToLower (str "constructor")))) = none ∧
    resolveCommodityCode (str "constructor") ≠
      JsValue.jsStr (str "BRENT_CRUDE_USD") := by decide

/-- C9 (amended): when the normalized input is neither a known code
case-insensitively, nor an exact alias key, nor one of the inherited
`Object.prototype` property names (`constructor`, `__proto__`), the
resolver returns exactly what the spec's fuzzy tier prescribes: the
mapped code of the first alias entry, in table order, related to the
normalized input by either substring containment, and the default
`BRENT_CRUDE_USD` when no entry qualifies. -/
theorem resolve_fuzzy_tier :
    ∀ s : List Nat,
      jsToUpper (jsTrim (jsToLower s)) ∉ COMMODITY_CODES →
      COMMODITY_ALIASES.lookup (jsTrim (jsToLower s)) = none →
      jsTrim (jsToLower s) ∉ protoKeys →
      resolveCommodityCode s =
        JsValue.jsStr (fuzzyResolveSpec (jsTrim (jsToLower s))) := by
  intro s h1 h2 hp
  have hc : ¬ jsTrim (jsToLower s) = str "constructor" := fun h =>
    hp (by simp [protoKeys, h])
  have hq : ¬ jsTrim (jsToLower s) = str "__proto__" := fun h =>
    hp (by simp [protoKeys, h])
  have har : aliasRead (jsTrim (jsToLower s)) = none := by
    simp [aliasRead, h2, hc, hq]
  simp only [resolveCommodityCode, fuzzyResolveSpec, if_neg h1, har]
  split
  · rfl
  · rfl

/-- C9 witness: an input with no exact, alias, prototype, or substring
relation resolves through the fuzzy tier (here to the default code). -/
theorem resolve_fuzzy_tier_witness :
    resolveCommodityCode (str "zzz qqq") =
      JsValue.jsStr (fuzzyResolveSpec (jsTrim (jsToLower (str "zzz qqq")))) :=
  resolve_fuzzy_tier (str "zzz qqq") (by decide) (by decide) (by decide)

/-- C10 counterexample: at the input `__proto__` the program returns the
inherited `Object.prototype` object from the alias tier, which is not a
member of `COMMODITY_CODES`; so the result set is not closed under the
code set and idempotence fails there (re-resolving that value is not
even a string operation). -/
theorem resolver_invariants_counterexample :
    resolveCommodityCode (str "__proto__") = JsValue.objectPrototype ∧
    isCommodityCode (resolveCommodityCode (str "__proto__")) = false := by decide

/-- C10 (amended): every alias-table value is a member of
`COMMODITY_CODES`; and for every input whose normalized form is not an
inherited `Object.prototype` property name (`constructor`,
`__proto__`), the resolver returns a member of `COMMODITY_CODES` and is
idempotent: re-resolving the returned string returns it unchanged. -/
theorem resolver_invariants :
    (∀ p : List Nat × List Nat, p ∈ COMMODITY_ALIASES → p.2 ∈ COMMODITY_CODES) ∧
    (∀ s : List Nat, jsTrim (jsToLower s) ∉ protoKeys →
      isCommodityCode (resolveCommodityCode s) = true) ∧
    (∀ s : List Nat, jsTrim (jsToLower s) ∉ protoKeys →
      resolveCommodityCode ((resolveCommodityCode s).strVal) =
        resolveCommodityCode s) := by
  refine ⟨alias_snd_mem, ?_, ?_⟩
  · intro s hp
    obtain ⟨c, hc, hmem⟩ := resolve_str_mem_codes s hp
    simp [hc, isCommodityCode, hmem]
  · intro s hp
    obtain ⟨c, hc, hmem⟩ := resolve_str_mem_codes s hp
    rw [hc]
    exact codes_resolve_fixed c hmem

/-- C10 witness: the invariants applied at concrete inputs. -/
theorem resolver_invariants_witness :
    str "GOLD_USD" ∈ COMMODITY_CODES ∧
    isCommodityCode (resolveCommodityCode (str "jet fuel")) = true ∧
    resolveCommodityCode ((resolveCommodityCode (str "jet fuel")).strVal) =
      resolveCommodityCode (str "jet fuel") :=
  ⟨resolver_invariants.1 (str "gold", str "GOLD_USD") (by decide),
    resolver_invariants.2.1 (str "jet fuel") (by decide),
    resolver_invariants.2.2 (str "jet fuel") (by decide)⟩

/-! Helper lemmas about the fetcher model. -/

/-- A 429 or 5xx response is not `ok`. -/
lemma retryable_not_ok {α : Type} {r : MockResponse α}
    (h : r.status = 429 ∨ 500 ≤ r.status) : r.isOk = false := by
  simp only [MockResponse.isOk, Bool.and_eq_false_iff, decide_eq_false_iff_not, not_le]
  omega

/-- A 429 or 5xx response does not have status 401. -/
lemma retryable_ne_401 {α : Type} {r : MockResponse α}
    (h : r.status = 429 ∨ 500 ≤ r.status) : ¬ r.status = 401 := by
  omega

/-- The retry loop never produces the `raised` outcome: every path of its
body either returns the parsed value, returns null, or recurses. -/
lemma runFrom_result_shape {α : Type} (f : Nat → FetchOutcome α) :
    ∀ fuel attempt,
      (runFrom f fuel attempt).result = ApiOutcome.null ∨
      ∃ v, (runFrom f fuel attempt).result = ApiOutcome.value v := by
  intro fuel
  induction fuel with
  | zero => exact fun _ => Or.inl rfl
  | succ n ih =>
    intro attempt
    simp only [runFrom]
    rcases hfa : f attempt with _ | r
    · by_cases h : attempt = maxRetries
      · simp [h]
      · simpa [h] using ih (attempt + 1)
    · by_cases hok : r.isOk
      · rcases hb : r.body with v | _
        · exact Or.inr ⟨v, by simp [hok, hb]⟩
        · by_cases h : attempt = maxRetries
          · simp [hok, hb, h]
          · simpa [hok, hb, h] using ih (attempt + 1)
      · by_cases h401 : r.status = 401
        · simp [hok, h401]
        · by_cases hr : (r.status = 429 ∨ 500 ≤ r.status) ∧ attempt < maxRetries
          · simpa [hok, h401, hr] using ih (attempt + 1)
          · simp [hok, h401, hr]

/-- With every attempt answered by a retryable (429/5xx) response, the
loop returns null after spending its whole budget, one call per unit of
fuel. -/
lemma runFrom_retryable_all {α : Type} (f : Nat → FetchOutcome α)
    (H : ∀ n, ∃ r, f n = FetchOutcome.resp r ∧ (r.status = 429 ∨ 500 ≤ r.status)) :
    ∀ fuel attempt, fuel + attempt = maxRetries + 1 →
      (runFrom f fuel attempt).result = ApiOutcome.null ∧
      (runFrom f fuel attempt).calls = fuel := by
  intro fuel
  induction fuel with
  | zero => exact fun _ _ => ⟨rfl, rfl⟩
  | succ n ih =>
    intro attempt hfa
    obtain ⟨r, hr, hs⟩ := H attempt
    have hok : r.isOk = false := retryable_not_ok hs
    have h401 : ¬ r.status = 401 := retryable_ne_401 hs
    simp only [runFrom, hr, hok, Bool.false_eq_true, if_false, if_neg h401]
    by_cases hlt : attempt < maxRetries
    · rw [if_pos ⟨hs, hlt⟩]
      have hrec := ih (attempt + 1) (by omega)
      exact ⟨hrec.1, by simp [hrec.2]⟩
    · rw [if_neg (fun hcon => hlt hcon.2)]
      have hn : n = 0 := by omega
      exact ⟨rfl, by simp [hn]⟩

/-- With every attempt throwing a transport error, the loop returns null
after spending its whole budget, one call per unit of fuel. -/
lemma runFrom_throw_all {α : Type} (f : Nat → FetchOutcome α)
    (H : ∀ n, f n = FetchOutcome.throw) :
    ∀ fuel attempt, fuel + attempt = maxRetries + 1 →
      (runFrom f fuel attempt).result = ApiOutcome.null ∧
      (runFrom f fuel attempt).calls = fuel := by
  intro fuel
  induction fuel with
  | zero => exact fun _ _ => ⟨rfl, rfl⟩
  | succ n ih =>
    intro attempt hfa
    simp only [runFrom, H attempt]
    by_cases h : attempt = maxRetries
    · have hn : n = 0 := by omega
      rw [if_pos h]
      exact ⟨rfl, by simp [hn]⟩
    · rw [if_neg h]
      have hrec := ih (attempt + 1) (by omega)
      exact ⟨hrec.1, by simp [hrec.2]⟩

/-- With every attempt answered by a 2xx response whose body fails to
parse, the loop behaves exactly like the transport-error case: the parse
exception is caught by the same `catch`, and the loop returns null after
spending its whole budget. -/
lemma runFrom_parseThrow_all {α : Type} (f : Nat → FetchOutcome α)
    (H : ∀ n, ∃ r, f n = FetchOutcome.resp r ∧ r.isOk = true ∧
      r.body = JsonBody.throwParse) :
    ∀ fuel attempt, fuel + attempt = maxRetries + 1 →
      (runFrom f fuel attempt).result = ApiOutcome.null ∧
      (runFrom f fuel attempt).calls = fuel := by
  intro fuel
  induction fuel with
  | zero => exact fun _ _ => ⟨rfl, rfl⟩
  | succ n ih =>
    intro attempt hfa
    obtain ⟨r, hr, hok, hb⟩ := H attempt
    simp only [runFrom, hr, hok, hb, if_true]
    by_cases h : attempt = maxRetries
    · have hn : n = 0 := by omega
      rw [if_pos h]
      exact ⟨rfl, by simp [hn]⟩
    · rw [if_neg h]
      have hrec := ih (attempt + 1) (by omega)
      exact ⟨hrec.1, by simp [hrec.2]⟩

/-- C2: `makeApiRequest` never lets an exception escape: for every
behaviour of the injected fetch function (responses of any status,
thrown transport errors, and bodies whose JSON parsing throws) the call
terminates with either a parsed value or null, never the `raised`
outcome.  (The endpoint string only enters the request URL and the
diagnostic text, not the control flow, so it does not appear in the
model.) -/
theorem makeApiRequest_never_raises :
    ∀ (α : Type) (fetchFn : Nat → FetchOutcome α),
      ((makeApiRequest fetchFn).result = ApiOutcome.null ∨
        ∃ v, (makeApiRequest fetchFn).result = ApiOutcome.value v) ∧
      (makeApiRequest fetchFn).result ≠ ApiOutcome.raised := by
  intro _ f
  have h := runFrom_result_shape f (maxRetries + 1) 0
  refine ⟨h, ?_⟩
  rcases h with h | ⟨v, h⟩ <;> simp [makeApiRequest] at h ⊢ <;> simp [h]

/-- C4: when every response is a 429 (or any 5xx status), the call
returns null after exactly `maxRetries + 1 = 4` underlying fetch calls,
and the same bound holds when every fetch call throws a transport
error. -/
theorem makeApiRequest_exhaustion :
    ∀ (α : Type) (fetchFn : Nat → FetchOutcome α),
      ((∀ n, ∃ r, fetchFn n = FetchOutcome.resp r ∧
          (r.status = 429 ∨ 500 ≤ r.status)) →
        (makeApiRequest fetchFn).result = ApiOutcome.null ∧
        (makeApiRequest fetchFn).calls = maxRetries + 1) ∧
      ((∀ n, fetchFn n = FetchOutcome.throw) →
        (makeApiRequest fetchFn).result = ApiOutcome.null ∧
        (makeApiRequest fetchFn).calls = maxRetries + 1) ∧
      maxRetries + 1 = 4 := by
  intro α f
  exact ⟨fun H => runFrom_retryable_all f H (maxRetries + 1) 0 rfl,
    fun H => runFrom_throw_all f H (maxRetries + 1) 0 rfl, rfl⟩

/-- C4 witness: the exhaustion bound at an all-429 fetch behaviour and at
an all-throw fetch behaviour. -/
theorem makeApiRequest_exhaustion_witness :
    ((makeApiRequest fetch429).result = ApiOutcome.null ∧
      (makeApiRequest fetch429).calls = maxRetries + 1) ∧
    ((makeApiRequest fetchThrow).result = ApiOutcome.null ∧
      (makeApiRequest fetchThrow).calls = maxRetries + 1) :=
  ⟨(makeApiRequest_exhaustion Nat fetch429).1
      (fun _ => ⟨⟨429, none, JsonBody.ok 0⟩, rfl, Or.inl rfl⟩),
    (makeApiRequest_exhaustion Nat fetchThrow).2.1 (fun _ => rfl)⟩

/-- C5: a 401 response on the first attempt makes the call return null
immediately, with exactly one underlying fetch call and one diagnostic,
regardless of the behaviour of later attempts. -/
theorem makeApiRequest_401_immediate :
    ∀ (α : Type) (fetchFn : Nat → FetchOutcome α) (r : MockResponse α),
      fetchFn 0 = FetchOutcome.resp r → r.status = 401 →
      (makeApiRequest fetchFn).result = ApiOutcome.null ∧
      (makeApiRequest fetchFn).calls = 1 ∧
      (makeApiRequest fetchFn).diag = 1 := by
  intro α f r hf hs
  have hok : r.isOk = false := by
    simp only [MockResponse.isOk, Bool.and_eq_false_iff, decide_eq_false_iff_not, not_le]
    omega
  simp [makeApiRequest, runFrom, hf, hok, hs]

/-- C5 witness: the immediate-401 behaviour at a concrete fetch. -/
theorem makeApiRequest_401_witness :
    (makeApiRequest fetch401).result = ApiOutcome.null ∧
    (makeApiRequest fetch401).calls = 1 ∧
    (makeApiRequest fetch401).diag = 1 :=
  makeApiRequest_401_immediate Nat fetch401 ⟨401, none, JsonBody.ok 0⟩ rfl rfl

/-- C1 counterexample: with a 429 carrying the present-but-unparsable
retry hint `"abc"` on attempt 0, the scheduled delay is `NaN`, not the
`2^0 * 1000` milliseconds the claim asserts for an unparsable header. -/
theorem retry_delay_counterexample :
    (makeApiRequest fetch429BadHint).delays.head? = some JsDelay.nan ∧
    (makeApiRequest fetch429BadHint).delays.head? ≠
      some (JsDelay.ms (2 ^ 0 * 1000)) := by decide

/-- C1 (amended): on a retried 429/5xx response the delay is
`min(parsed, 60) * 1000` ms when the retry hint parses, the exponential
`2^n * 1000` ms when the header is absent or empty, and `NaN` when the
header is present, non-empty and unparsable; transport-error retries
always use the exponential formula; and a hint of `"5"` on a 429
schedules the next attempt after exactly 5000 ms. -/
theorem retry_delay_spec :
    (∀ n : Nat, computeDelay none n = JsDelay.ms (2 ^ n * 1000)) ∧
    (∀ n : Nat, computeDelay (some []) n = JsDelay.ms (2 ^ n * 1000)) ∧
    (∀ (n : Nat) (s : List Nat) (k : Int), s ≠ [] → jsParseInt s = some k →
      computeDelay (some s) n = JsDelay.ms (min k 60 * 1000)) ∧
    (∀ (n : Nat) (s : List Nat), s ≠ [] → jsParseInt s = none →
      computeDelay (some s) n = JsDelay.nan) ∧
    (∀ (α : Type) (fetchFn : Nat → FetchOutcome α) (r : MockResponse α),
      fetchFn 0 = FetchOutcome.resp r → (r.status = 429 ∨ 500 ≤ r.status) →
      (makeApiRequest fetchFn).delays.head? = some (computeDelay r.retryAfter 0)) ∧
    (∀ (α : Type) (fetchFn : Nat → FetchOutcome α),
      fetchFn 0 = FetchOutcome.throw →
      (makeApiRequest fetchFn).delays.head? = some (JsDelay.ms 1000)) ∧
    (makeApiRequest fetch429Hint5).delays.head? = some (JsDelay.ms 5000) := by
  refine ⟨fun n => rfl, fun n => rfl, ?_, ?_, ?_, ?_, by decide⟩
  · intro n s k hne hp
    simp [computeDelay, List.isEmpty_iff, hne, hp]
  · intro n s hne hp
    simp [computeDelay, List.isEmpty_iff, hne, hp]
  · intro α f r hf hs
    have hok : r.isOk = false := retryable_not_ok hs
    have h401 : ¬ r.status = 401 := retryable_ne_401 hs
    have hlt : (0 : Nat) < maxRetries := by decide
    simp [makeApiRequest, runFrom, hf, hok, h401, hs, hlt]
  · intro α f hf
    have h0 : ¬ (0 = maxRetries) := by decide
    simp [makeApiRequest, runFrom, hf, h0]

/-- C1 witness: the header-parsing arm of the delay computation applied
at the fetch behaviour carrying the unparsable hint `"abc"`. -/
theorem retry_delay_spec_witness :
    (makeApiRequest fetch429BadHint).delays.head? =
      some (computeDelay (some (str "abc")) 0) :=
  retry_delay_spec.2.2.2.2.1 Nat fetch429BadHint
    ⟨429, some (str "abc"), JsonBody.ok 0⟩ rfl (Or.inl rfl)

/-- C3 counterexample: with every response a 200 whose body fails to
parse, the call does resolve from within `makeApiRequest` — to null
after 4 attempts — rather than letting the parse exception propagate. -/
theorem parse_error_counterexample :
    (makeApiRequest fetchParseThrow).result = ApiOutcome.null ∧
    (makeApiRequest fetchParseThrow).result ≠ ApiOutcome.raised ∧
    (makeApiRequest fetchParseThrow).calls = 4 := by decide

/-- C3 (amended): a parse exception on a 2xx response is caught by the
same `catch` block as network errors (both throw sites are inside the
`try`), so it is treated as a retryable failure: if every attempt yields
such a response, the call resolves to null after `maxRetries + 1`
underlying fetch calls. -/
theorem parse_error_retried :
    ∀ (α : Type) (fetchFn : Nat → FetchOutcome α),
      (∀ n, ∃ r, fetchFn n = FetchOutcome.resp r ∧ r.isOk = true ∧
        r.body = JsonBody.throwParse) →
      (makeApiRequest fetchFn).result = ApiOutcome.null ∧
      (makeApiRequest fetchFn).calls = maxRetries + 1 :=
  fun _ f H => runFrom_parseThrow_all f H (maxRetries + 1) 0 rfl

/-- C3 witness: the parse-throw behaviour applied at a concrete fetch. -/
theorem parse_error_retried_witness :
    (makeApiRequest fetchParseThrow).result = ApiOutcome.null ∧
    (makeApiRequest fetchParseThrow).calls = maxRetries + 1 :=
  parse_error_retried Nat fetchParseThrow
    (fun _ => ⟨⟨200, none, JsonBody.throwParse⟩, rfl, rfl, rfl⟩)

end OilPrice
